import Mathlib

/-!
Verification development for the MediFox symptom-assessment application.

The repository ships the React frontend (services/api.ts, pages/Index.tsx,
pages/Dashboard.tsx, components/SymptomAssessment.tsx, components/ChatInput.tsx)
together with the Flask backend requirements and READMEs; the backend package
itself (app/ai, app/appointments) is not part of the source tree.  The frontend
logic below is embedded directly from the TypeScript source; the backend
orchestrator is modelled from the specification, each such definition carrying a
doc comment that starts with "Modelled from the spec:".
-/

/-! ## A model of the JSON values the assessment fields carry

The api service applies the JavaScript builtin JSON.parse to the
recommendations, dos and donts fields of a backend response whenever the field
arrives as a string.  Per the API contract those fields hold either a JSON
array of strings or a bare paragraph of text, so JSON.parse is modelled on the
value domain the fields take: a JSON string literal or a JSON array of string
literals.  Any other input is treated as a parse failure, exactly as JSON.parse
fails on a bare non-JSON paragraph.  The encoder mirrors JSON.stringify on the
same domain: no added whitespace, with the two-character escapes JSON.stringify
emits and a hexadecimal escape for the remaining control characters.
-/

/-- The JSON values the recommendations, dos and donts fields can denote:
a string literal or an array of string literals. -/
inductive JsonVal : Type where
  | str (s : String)
  | arr (xs : List String)
deriving DecidableEq

/-- Whitespace accepted between JSON tokens, per RFC 8259. -/
def isWsChar (c : Char) : Bool :=
  c = ' ' ∨ c = '\n' ∨ c = '\t' ∨ c = '\r'

/-- Drop leading JSON whitespace. -/
def skipWs : List Char → List Char
  | [] => []
  | c :: rest => if isWsChar c then skipWs rest else c :: rest

/-- Numeric value of one hexadecimal digit, accepting both letter cases. -/
def hexDigitVal (c : Char) : Option Nat :=
  if '0' ≤ c ∧ c ≤ '9' then some (c.toNat - '0'.toNat)
  else if 'a' ≤ c ∧ c ≤ 'f' then some (c.toNat - 'a'.toNat + 10)
  else if 'A' ≤ c ∧ c ≤ 'F' then some (c.toNat - 'A'.toNat + 10)
  else none

/-- The lower-case hexadecimal digit for a value below 16. -/
def hexDigit (n : Nat) : Char :=
  if n < 10 then Char.ofNat (48 + n) else Char.ofNat (87 + n)

/-- The character denoted by a one-letter JSON escape. -/
def decodeSimpleEscape (e : Char) : Option Char :=
  if e = '"' then some '"'
  else if e = '\\' then some '\\'
  else if e = '/' then some '/'
  else if e = 'n' then some '\n'
  else if e = 't' then some '\t'
  else if e = 'r' then some '\r'
  else if e = 'b' then some (Char.ofNat 8)
  else if e = 'f' then some (Char.ofNat 12)
  else none

/-- Read the body of a JSON string literal, the opening quote already consumed.
Returns the decoded characters and the input that follows the closing quote.
An unescaped control character or an unterminated literal is a failure, as in
JSON.parse. -/
def parseStringBody : List Char → Option (List Char × List Char)
  | [] => none
  | c :: rest =>
    if c = '"' then some ([], rest)
    else if c = '\\' then
      match rest with
      | [] => none
      | e :: rest2 =>
        if e = 'u' then
          match rest2 with
          | h1 :: h2 :: h3 :: h4 :: rest3 =>
            match hexDigitVal h1, hexDigitVal h2, hexDigitVal h3, hexDigitVal h4 with
            | some a, some b, some c2, some d =>
              match parseStringBody rest3 with
              | some (cs, rem) =>
                some (Char.ofNat (((a * 16 + b) * 16 + c2) * 16 + d) :: cs, rem)
              | none => none
            | _, _, _, _ => none
          | _ => none
        else
          match decodeSimpleEscape e with
          | some c2 =>
            match parseStringBody rest2 with
            | some (cs, rem) => some (c2 :: cs, rem)
            | none => none
          | none => none
    else if c.toNat < 32 then none
    else
      match parseStringBody rest with
      | some (cs, rem) => some (c :: cs, rem)
      | none => none

/-- Read the items of a JSON array of string literals, positioned on the first
item; consumes the closing bracket.  The fuel argument bounds the number of
items and is instantiated with the input length, which always suffices. -/
def parseItems : Nat → List Char → Option (List String × List Char)
  | 0, _ => none
  | fuel + 1, l =>
    match skipWs l with
    | [] => none
    | c :: rest =>
      if c = '"' then
        match parseStringBody rest with
        | some (cs, rest2) =>
          match skipWs rest2 with
          | [] => none
          | c2 :: rest3 =>
            if c2 = ',' then
              match parseItems fuel rest3 with
              | some (xs, rem) => some (String.mk cs :: xs, rem)
              | none => none
            else if c2 = ']' then some ([String.mk cs], rest3)
            else none
        | none => none
      else none

/-- The JSON.parse builtin, modelled on the value domain of the assessment
fields: a complete JSON string literal or a complete JSON array of string
literals, surrounded by optional whitespace.  Everything else fails, as
JSON.parse fails (with a SyntaxError) on a bare paragraph of text. -/
def jsonParse (s : String) : Option JsonVal :=
  match skipWs s.data with
  | [] => none
  | c :: rest =>
    if c = '"' then
      match parseStringBody rest with
      | some (cs, rest2) =>
        if skipWs rest2 = [] then some (JsonVal.str (String.mk cs)) else none
      | none => none
    else if c = '[' then
      match skipWs rest with
      | [] => none
      | c2 :: rest2 =>
        if c2 = ']' then
          if skipWs rest2 = [] then some (JsonVal.arr []) else none
        else
          match parseItems (s.data.length + 1) (c2 :: rest2) with
          | some (xs, rem) => if skipWs rem = [] then some (JsonVal.arr xs) else none
          | none => none
    else none

/-- JSON.stringify for one character of a string literal: the quote and the
backslash take a two-character escape, the named control characters take their
letter escapes, the remaining control characters a hexadecimal escape, and
every other character stands for itself. -/
def encodeChar (c : Char) : List Char :=
  if c = '"' then ['\\', '"']
  else if c = '\\' then ['\\', '\\']
  else if c = '\n' then ['\\', 'n']
  else if c = '\t' then ['\\', 't']
  else if c = '\r' then ['\\', 'r']
  else if c = Char.ofNat 8 then ['\\', 'b']
  else if c = Char.ofNat 12 then ['\\', 'f']
  else if c.toNat < 32 then
    ['\\', 'u', '0', '0', hexDigit (c.toNat / 16), hexDigit (c.toNat % 16)]
  else [c]

/-- JSON.stringify of one string, as a character list: quote, escaped body,
quote. -/
def encodeStringChars (s : String) : List Char :=
  '"' :: (s.data.map encodeChar).flatten ++ ['"']

/-- The comma-separated encodings of the items of a nonempty array. -/
def encodeItemsChars : List String → List Char
  | [] => []
  | [s] => encodeStringChars s
  | s :: rest => encodeStringChars s ++ ',' :: encodeItemsChars rest

/-- JSON.stringify of an array of strings, e.g. mapping the list of the two
texts a and b to the nine characters of its bracketed encoding. -/
def jsonStringifyArr (l : List String) : String :=
  String.mk ('[' :: encodeItemsChars l ++ [']'])

/-! ## The frontend api service (frontend/src/services/api.ts)

The service receives the backend assessment payload, in which the
recommendations field is declared as a string holding JSON, and the dos and
donts fields may arrive as arrays or as strings.  Lines 80 to 91 of the file
run, inside a try block whose catch logs and rethrows:

  if (response.data.recommendations and typeof recommendations is a string)
    recommendations = JSON.parse(recommendations), and the same for dos and
    for donts.

A field is modelled as absent (undefined in JavaScript), a string, or an array
of strings.  The truthiness guard means an absent field and the empty string
are skipped; an array has object type and is skipped; a nonempty string is fed
to JSON.parse, whose failure propagates out of assessSymptoms as a thrown
error, modelled as the error branch of Except. -/

/-- Shape of the recommendations, dos and donts fields as they cross the
api boundary: absent, a string, or an array of strings. -/
inductive FieldVal : Type where
  | absent
  | str (s : String)
  | arr (xs : List String)
deriving DecidableEq

/-- The value JSON.parse produces, as a field value. -/
def jsonToField : JsonVal → FieldVal
  | JsonVal.str s => FieldVal.str s
  | JsonVal.arr xs => FieldVal.arr xs

/-- One guarded parse from the api service: if the field is truthy and of
string type it is replaced by JSON.parse of itself, and a parse failure is a
thrown SyntaxError; otherwise the field is left untouched.  The empty string
is falsy in JavaScript, so the guard skips it. -/
def normalizeField : FieldVal → Except String FieldVal
  | FieldVal.str s =>
    if s = "" then Except.ok (FieldVal.str s)
    else
      match jsonParse s with
      | some j => Except.ok (jsonToField j)
      | none => Except.error "SyntaxError: Unexpected token in JSON"
  | v => Except.ok v

/-- A PubMed reference as typed in the api service. -/
structure PubMedReference : Type where
  pmid : String
  title : String
  abstract : String
  date : String
deriving DecidableEq

/-- A clinical trial as typed in the api service. -/
structure ClinicalTrial : Type where
  nct_id : String
  title : String
  status : String
  phase : String
  summary : String
  conditions : List String
  start_date : String
  completion_date : String
  url : String
deriving DecidableEq

/-- The backend assessment payload as typed in the api service, with the three
fields the service may reshape carried as FieldVal. -/
structure SymptomAssessmentResponse : Type where
  id : Nat
  symptoms : String
  urgency_level : String
  urgency_description : String
  reasoning : String
  recommendations : FieldVal
  dos : FieldVal
  donts : FieldVal
  disclaimer : String
  created_at : String
  pubmed_references : List PubMedReference
  clinical_trials : List ClinicalTrial
deriving DecidableEq

/-- The response-processing part of aiService.assessSymptoms: the three guarded
parses run in order inside one try block, so the first thrown SyntaxError
aborts the call and is rethrown to the caller; otherwise the reshaped response
is returned. -/
def assessSymptoms (r : SymptomAssessmentResponse) : Except String SymptomAssessmentResponse :=
  match normalizeField r.recommendations with
  | Except.error e => Except.error e
  | Except.ok rec2 =>
    match normalizeField r.dos with
    | Except.error e => Except.error e
    | Except.ok dos2 =>
      match normalizeField r.donts with
      | Except.error e => Except.error e
      | Except.ok donts2 =>
        Except.ok { r with recommendations := rec2, dos := dos2, donts := donts2 }

/-! ## The dashboard urgency badge (frontend/src/pages/Dashboard.tsx)

getUrgencyBadge switches on the lower-cased urgency level: high and emergency
render the red Emergency badge, medium the orange Urgent badge, low the blue
Standard badge, and the default branch renders a plain badge showing the
incoming value verbatim. -/

/-- ASCII lower-casing of one character, as toLowerCase acts on the values in
play here. -/
def charToLower (c : Char) : Char :=
  if 'A' ≤ c ∧ c ≤ 'Z' then Char.ofNat (c.toNat + 32) else c

/-- ASCII lower-casing of a string. -/
def strToLower (s : String) : String :=
  String.mk (s.data.map charToLower)

/-- The badge a dashboard row shows for an urgency level. -/
inductive BadgeKind : Type where
  | emergency
  | urgent
  | standard
  | plain (label : String)
deriving DecidableEq

/-- The urgency badge switch from Dashboard.tsx lines 109 to 121: high and
emergency map to the Emergency badge, medium to Urgent, low to Standard, and
anything else to a default badge carrying the raw level text. -/
def getUrgencyBadge (level : String) : BadgeKind :=
  if strToLower level = "high" ∨ strToLower level = "emergency" then BadgeKind.emergency
  else if strToLower level = "medium" then BadgeKind.urgent
  else if strToLower level = "low" then BadgeKind.standard
  else BadgeKind.plain level


/-! ## The backend assessment orchestrator, modelled from the spec

The Flask backend package (app/ai and app/appointments in the repository
layout) is not part of the source tree; only its requirements file, the
READMEs and its frontend callers are.  The orchestrator below is therefore
modelled from the specification, sections 4.4, 4.5, 5 and 7 of the specification: validation, the
mandatory model call with one retry on a retryable unavailability, best-effort
enrichment with degradation to empty lists, shape normalization, urgency
coercion, deduplication, persistence, and the conditional appointment trigger.
External outcomes are supplied by an environment value, and every outbound
interaction is recorded in an event trace that the theorems inspect. -/

/-- Modelled from the spec: the error taxonomy of the core. -/
inductive ErrorKind : Type where
  | invalidRequest
  | upstreamUnavailable
  | modelOutputMalformed
  | persistenceFailure
deriving DecidableEq

/-- Modelled from the spec: the typed error a failed assessment surfaces. -/
structure AssessError : Type where
  kind : ErrorKind
  message : String
deriving DecidableEq

/-- Modelled from the spec: the three urgency tiers. -/
inductive Urgency : Type where
  | low
  | medium
  | high
deriving DecidableEq

/-- Modelled from the spec: the request AssessmentRequest. -/
structure AssessmentRequest : Type where
  symptoms : String
  age : Option Nat
  sex : Option String
  medical_history : Option String
  patient_id : Option String
deriving DecidableEq

/-- Modelled from the spec: a literature reference item. -/
structure ReferenceItem : Type where
  id : String
  title : String
  abstract : Option String
  published : String
deriving DecidableEq

/-- Modelled from the spec: a clinical-trial item. -/
structure TrialItem : Type where
  id : String
  title : String
  status : String
  phase : String
  summary : String
  conditions : List String
  start_date : String
  completion_date : String
  url : String
deriving DecidableEq

/-- Modelled from the spec: the raw triage object the model client returns,
whose list-like fields may arrive as a native sequence, a JSON-encoded string,
or a bare paragraph. -/
structure RawModelOutput : Type where
  urgency_level : String
  urgency_description : String
  reasoning : String
  recommendations : FieldVal
  dos : FieldVal
  donts : FieldVal
  disclaimer : String
deriving DecidableEq

/-- Modelled from the spec: the central ClinicalAssessment aggregate. -/
structure ClinicalAssessment : Type where
  id : Nat
  request : AssessmentRequest
  urgency_level : Urgency
  urgency_description : String
  reasoning : String
  recommendations : List String
  dos : List String
  donts : List String
  disclaimer : String
  references : List ReferenceItem
  trials : List TrialItem
  created_at : Nat
deriving DecidableEq

/-- Modelled from the spec: one attempt of the mandatory model call either
returns the raw output, is unavailable (with a retryable or non-retryable
cause), or yields output that is still malformed after the repair pass. -/
inductive ModelCallResult : Type where
  | ok (raw : RawModelOutput)
  | unavailable (retryable : Bool)
  | malformed
deriving DecidableEq

/-- Modelled from the spec: an enrichment call either returns its items or
fails (failure and timeout are not distinguished by the orchestrator). -/
inductive EnrichResult (α : Type) : Type where
  | ok (items : List α)
  | failed
deriving DecidableEq

/-- Modelled from the spec: the outcomes the environment hands to one run of
assess; the model call outcome is a function of the attempt number. -/
structure OrchestratorEnv : Type where
  modelCall : Nat → ModelCallResult
  refCall : EnrichResult ReferenceItem
  trialCall : EnrichResult TrialItem
  persistId : Option Nat
  apptResult : Option Nat
  now : Nat

/-- Modelled from the spec: the observable interactions of one run of assess,
in the order the orchestrator folds them. -/
inductive OrchEvent : Type where
  | modelCalled (attempt : Nat)
  | refCalled
  | trialCalled
  | persistCalled
  | apptCalled (assessmentId : Nat) (urgency : Urgency)
  | warned (reason : String)
deriving DecidableEq

/-- Modelled from the spec: age validation; an age, when present, must be a
plausible human age. -/
def plausibleAge : Option Nat → Bool
  | none => true
  | some a => 0 < a ∧ a ≤ 120

/-- Modelled from the spec: normalization of a model list field, spec section 4.4
step 4 and the design note in section 9: attempt native sequence, then JSON
string, then fall back to a single-element sequence; an absent field becomes
the empty sequence. -/
def specNormalize : FieldVal → List String
  | FieldVal.arr xs => xs
  | FieldVal.str s =>
    match jsonParse s with
    | some (JsonVal.arr xs) => xs
    | some (JsonVal.str t) => [t]
    | none => [s]
  | FieldVal.absent => []

/-- Modelled from the spec: urgency coercion, spec section 4.4 step 5:
case-insensitive synonym match onto the three tiers, unrecognized values
defaulting to medium with a flagged degradation (never to low). -/
def coerceUrgency (s : String) : Urgency × Bool :=
  let t := strToLower s
  if t = "high" ∨ t = "emergency" then (Urgency.high, false)
  else if t = "medium" ∨ t = "urgent" then (Urgency.medium, false)
  else if t = "low" ∨ t = "routine" ∨ t = "standard" then (Urgency.low, false)
  else (Urgency.medium, true)

/-- Modelled from the spec: keep each element whose id was not seen before,
first occurrence first. -/
def dedupById {α : Type} (getId : α → String) : List String → List α → List α
  | _, [] => []
  | seen, x :: rest =>
    if getId x ∈ seen then dedupById getId seen rest
    else x :: dedupById getId (getId x :: seen) rest

/-- Modelled from the spec: references deduplicated by id, first-seen order. -/
def dedupRefs (l : List ReferenceItem) : List ReferenceItem :=
  dedupById (fun r => r.id) [] l

/-- Modelled from the spec: trials deduplicated by id, first-seen order. -/
def dedupTrials (l : List TrialItem) : List TrialItem :=
  dedupById (fun t => t.id) [] l

/-- Modelled from the spec: the mandatory model call with its retry policy;
a retryable unavailability is retried exactly once with backoff, every other
failure is final.  Returns the model-call events and the outcome. -/
def runModelWithRetry (env : OrchestratorEnv) :
    List OrchEvent × Except ErrorKind RawModelOutput :=
  match env.modelCall 0 with
  | ModelCallResult.ok raw => ([OrchEvent.modelCalled 0], Except.ok raw)
  | ModelCallResult.malformed =>
    ([OrchEvent.modelCalled 0], Except.error ErrorKind.modelOutputMalformed)
  | ModelCallResult.unavailable retryable =>
    if retryable then
      match env.modelCall 1 with
      | ModelCallResult.ok raw =>
        ([OrchEvent.modelCalled 0, OrchEvent.modelCalled 1], Except.ok raw)
      | ModelCallResult.malformed =>
        ([OrchEvent.modelCalled 0, OrchEvent.modelCalled 1],
          Except.error ErrorKind.modelOutputMalformed)
      | ModelCallResult.unavailable _ =>
        ([OrchEvent.modelCalled 0, OrchEvent.modelCalled 1],
          Except.error ErrorKind.upstreamUnavailable)
    else ([OrchEvent.modelCalled 0], Except.error ErrorKind.upstreamUnavailable)

/-- Modelled from the spec: Orchestrator.assess, spec section 4.4.  Validation
happens before any outbound call; the three sub-calls are launched together
and folded after all settle; enrichment failure degrades to an empty list plus
a warning; the model failure aborts; normalization, coercion and
deduplication build the aggregate; persistence assigns the id; a high tier
triggers the appointment call, whose failure degrades to a warning.  Returns
the outcome and the event trace. -/
def assess (env : OrchestratorEnv) (req : AssessmentRequest) :
    Except AssessError ClinicalAssessment × List OrchEvent :=
  if req.symptoms = "" ∨ ¬ plausibleAge req.age then
    (Except.error { kind := ErrorKind.invalidRequest, message := "invalid request" }, [])
  else
    let m := runModelWithRetry env
    let refs := match env.refCall with
      | EnrichResult.ok items => items
      | EnrichResult.failed => []
    let refWarn : List OrchEvent := match env.refCall with
      | EnrichResult.ok _ => []
      | EnrichResult.failed => [OrchEvent.warned "reference lookup degraded"]
    let trials := match env.trialCall with
      | EnrichResult.ok items => items
      | EnrichResult.failed => []
    let trialWarn : List OrchEvent := match env.trialCall with
      | EnrichResult.ok _ => []
      | EnrichResult.failed => [OrchEvent.warned "trial lookup degraded"]
    let baseEvents := m.1 ++ [OrchEvent.refCalled, OrchEvent.trialCalled] ++ refWarn ++ trialWarn
    match m.2 with
    | Except.error k =>
      (Except.error { kind := k, message := "model completion failed" }, baseEvents)
    | Except.ok raw =>
      let coerced := coerceUrgency raw.urgency_level
      let urgWarn : List OrchEvent :=
        if coerced.2 then [OrchEvent.warned "unrecognized urgency coerced to medium"] else []
      match env.persistId with
      | none =>
        (Except.error { kind := ErrorKind.persistenceFailure, message := "could not persist" },
          baseEvents ++ urgWarn ++ [OrchEvent.persistCalled])
      | some aid =>
        let a : ClinicalAssessment :=
          { id := aid
            request := req
            urgency_level := coerced.1
            urgency_description := raw.urgency_description
            reasoning := raw.reasoning
            recommendations := specNormalize raw.recommendations
            dos := specNormalize raw.dos
            donts := specNormalize raw.donts
            disclaimer := raw.disclaimer
            references := dedupRefs refs
            trials := dedupTrials trials
            created_at := env.now }
        let apptEvents : List OrchEvent :=
          if coerced.1 = Urgency.high then
            OrchEvent.apptCalled aid coerced.1 ::
              (match env.apptResult with
                | some _ => []
                | none => [OrchEvent.warned "appointment trigger failed"])
          else []
        (Except.ok a, baseEvents ++ urgWarn ++ [OrchEvent.persistCalled] ++ apptEvents)

/-- True exactly on appointment-trigger events. -/
def isApptEvent : OrchEvent → Bool
  | OrchEvent.apptCalled _ _ => true
  | _ => false

/-- True exactly on model-call events. -/
def isModelEvent : OrchEvent → Bool
  | OrchEvent.modelCalled _ => true
  | _ => false

/-- True exactly on reference-lookup events. -/
def isRefEvent : OrchEvent → Bool
  | OrchEvent.refCalled => true
  | _ => false

/-- True exactly on trial-lookup events. -/
def isTrialEvent : OrchEvent → Bool
  | OrchEvent.trialCalled => true
  | _ => false

/-- True exactly on persistence events. -/
def isPersistEvent : OrchEvent → Bool
  | OrchEvent.persistCalled => true
  | _ => false

/-! ## Concrete values used by the witness theorems -/

/-- A backend payload with every field fixed except recommendations, which
varies across the concrete checks. -/
def mkResponse (v : FieldVal) : SymptomAssessmentResponse :=
  { id := 1
    symptoms := "headache"
    urgency_level := "low"
    urgency_description := "routine follow up"
    reasoning := "mild presentation"
    recommendations := v
    dos := FieldVal.arr ["hydrate"]
    donts := FieldVal.arr ["do not ignore worsening"]
    disclaimer := "not medical advice"
    created_at := "2024-01-01"
    pubmed_references := []
    clinical_trials := [] }

/-- A raw model output whose urgency coerces to the high tier. -/
def demoRawHigh : RawModelOutput :=
  { urgency_level := "high"
    urgency_description := "seek urgent care"
    reasoning := "possible cardiac involvement"
    recommendations := FieldVal.arr ["call emergency services"]
    dos := FieldVal.arr ["rest"]
    donts := FieldVal.arr ["do not drive yourself"]
    disclaimer := "not medical advice" }

/-- The end-to-end scenario request from the spec. -/
def demoReq : AssessmentRequest :=
  { symptoms := "severe chest pain and shortness of breath"
    age := some 55
    sex := some "male"
    medical_history := none
    patient_id := none }

/-- A request whose symptoms text is empty. -/
def emptyReq : AssessmentRequest :=
  { symptoms := ""
    age := none
    sex := none
    medical_history := none
    patient_id := none }

/-- An environment where the model succeeds at once, the trial lookup fails,
and persistence assigns id 1. -/
def demoEnv : OrchestratorEnv :=
  { modelCall := fun _ => ModelCallResult.ok demoRawHigh
    refCall := EnrichResult.ok []
    trialCall := EnrichResult.failed
    persistId := some 1
    apptResult := some 7
    now := 0 }

/-- An environment where every model attempt times out retryably. -/
def downEnv : OrchestratorEnv :=
  { modelCall := fun _ => ModelCallResult.unavailable true
    refCall := EnrichResult.ok []
    trialCall := EnrichResult.ok []
    persistId := some 1
    apptResult := some 7
    now := 0 }

/-- Two references sharing one id, plus a distinct one. -/
def demoRefs : List ReferenceItem :=
  [ { id := "pmid1", title := "first", abstract := none, published := "2020" }
  , { id := "pmid2", title := "other", abstract := none, published := "2021" }
  , { id := "pmid1", title := "duplicate", abstract := none, published := "2022" } ]

/-- Two trials sharing one id. -/
def demoTrials : List TrialItem :=
  [ { id := "NCT1", title := "trial a", status := "recruiting", phase := "2"
    , summary := "s", conditions := [], start_date := "2024", completion_date := ""
    , url := "u" }
  , { id := "NCT1", title := "trial a again", status := "active", phase := "2"
    , summary := "s", conditions := [], start_date := "2024", completion_date := ""
    , url := "u" } ]


/-! ## The parser inverts the encoder

These lemmas establish that jsonParse applied to the JSON.stringify encoding of
an array of strings recovers exactly that array.  They back the claims about
encoding-insensitivity of the api-service normalization. -/

theorem hexDigitVal_hexDigit (n : Nat) (h : n < 16) :
    hexDigitVal (hexDigit n) = some n := by
  interval_cases n <;> decide

theorem psb_quote (rest : List Char) : parseStringBody ('"' :: rest) = some ([], rest) := by
  conv_lhs => rw [parseStringBody.eq_def]
  simp

theorem psb_escape (e c2 : Char) (rest : List Char) (he : ¬ e = 'u')
    (hd : decodeSimpleEscape e = some c2) :
    parseStringBody ('\\' :: e :: rest)
      = match parseStringBody rest with
        | some (cs, rem) => some (c2 :: cs, rem)
        | none => none := by
  conv_lhs => rw [parseStringBody.eq_def]
  simp [he, hd]

theorem psb_unicode (h1 h2 h3 h4 : Char) (a b c2 d : Nat) (rest : List Char)
    (ha : hexDigitVal h1 = some a) (hb : hexDigitVal h2 = some b)
    (hc : hexDigitVal h3 = some c2) (hd : hexDigitVal h4 = some d) :
    parseStringBody ('\\' :: 'u' :: h1 :: h2 :: h3 :: h4 :: rest)
      = match parseStringBody rest with
        | some (cs, rem) =>
            some (Char.ofNat (((a * 16 + b) * 16 + c2) * 16 + d) :: cs, rem)
        | none => none := by
  conv_lhs => rw [parseStringBody.eq_def]
  simp [ha, hb, hc, hd]

theorem psb_plain (c : Char) (rest : List Char) (h1 : ¬ c = '"') (h2 : ¬ c = '\\')
    (h3 : ¬ c.toNat < 32) :
    parseStringBody (c :: rest)
      = match parseStringBody rest with
        | some (cs, rem) => some (c :: cs, rem)
        | none => none := by
  conv_lhs => rw [parseStringBody.eq_def]
  simp [h1, h2, h3]

theorem parseStringBody_encode (cs : List Char) (rest : List Char) :
    parseStringBody ((cs.map encodeChar).flatten ++ '"' :: rest) = some (cs, rest) := by
  induction cs with
  | nil => simp [psb_quote]
  | cons c cs ih =>
    simp only [List.map_cons, List.flatten_cons, List.append_assoc]
    by_cases h1 : c = '"'
    · subst h1
      rw [show encodeChar '"' = ['\\', '"'] from by decide]
      simp [psb_escape '"' '"' _ (by decide) (by decide), ih]
    · by_cases h2 : c = '\\'
      · subst h2
        rw [show encodeChar '\\' = ['\\', '\\'] from by decide]
        simp [psb_escape '\\' '\\' _ (by decide) (by decide), ih]
      · by_cases h3 : c = '\n'
        · subst h3
          rw [show encodeChar '\n' = ['\\', 'n'] from by decide]
          simp [psb_escape 'n' '\n' _ (by decide) (by decide), ih]
        · by_cases h4 : c = '\t'
          · subst h4
            rw [show encodeChar '\t' = ['\\', 't'] from by decide]
            simp [psb_escape 't' '\t' _ (by decide) (by decide), ih]
          · by_cases h5 : c = '\r'
            · subst h5
              rw [show encodeChar '\r' = ['\\', 'r'] from by decide]
              simp [psb_escape 'r' '\r' _ (by decide) (by decide), ih]
            · by_cases h6 : c = Char.ofNat 8
              · subst h6
                rw [show encodeChar (Char.ofNat 8) = ['\\', 'b'] from by decide]
                simp [psb_escape 'b' (Char.ofNat 8) _ (by decide) (by decide), ih]
              · by_cases h7 : c = Char.ofNat 12
                · subst h7
                  rw [show encodeChar (Char.ofNat 12) = ['\\', 'f'] from by decide]
                  simp [psb_escape 'f' (Char.ofNat 12) _ (by decide) (by decide), ih]
                · by_cases h8 : c.toNat < 32
                  · have e1 : hexDigitVal (hexDigit (c.toNat / 16)) = some (c.toNat / 16) :=
                      hexDigitVal_hexDigit _ (by omega)
                    have e2 : hexDigitVal (hexDigit (c.toNat % 16)) = some (c.toNat % 16) :=
                      hexDigitVal_hexDigit _ (by omega)
                    have e3 : c.toNat / 16 * 16 + c.toNat % 16 = c.toNat := by omega
                    rw [show encodeChar c
                        = ['\\', 'u', '0', '0', hexDigit (c.toNat / 16), hexDigit (c.toNat % 16)]
                      from by simp [encodeChar, h1, h2, h3, h4, h5, h6, h7, h8]]
                    rw [List.cons_append, List.cons_append, List.cons_append, List.cons_append,
                      List.cons_append, List.cons_append, List.nil_append]
                    rw [psb_unicode '0' '0' (hexDigit (c.toNat / 16)) (hexDigit (c.toNat % 16))
                      0 0 (c.toNat / 16) (c.toNat % 16) _ (by decide) (by decide) e1 e2]
                    simp [ih, e3]
                  · rw [show encodeChar c = [c]
                      from by simp [encodeChar, h1, h2, h3, h4, h5, h6, h7, h8]]
                    rw [List.cons_append, List.nil_append, psb_plain c _ h1 h2 h8]
                    simp [ih]

theorem encodeStringChars_eq (s : String) :
    encodeStringChars s = '"' :: ((s.data.map encodeChar).flatten ++ ['"']) := by
  simp [encodeStringChars]

theorem parseItems_encode (l : List String) :
    ∀ (fuel : Nat) (rest : List Char), l ≠ [] → l.length ≤ fuel →
    parseItems fuel (encodeItemsChars l ++ ']' :: rest) = some (l, rest) := by
  induction l with
  | nil => intro fuel rest h _; exact absurd rfl h
  | cons x t ih =>
    intro fuel rest _ hlen
    cases fuel with
    | zero => simp at hlen
    | succ f =>
      cases t with
      | nil =>
        have hbody := parseStringBody_encode x.data (']' :: rest)
        simp [encodeItemsChars, encodeStringChars_eq, parseItems, skipWs, isWsChar,
          hbody]
      | cons y t2 =>
        have hbody := parseStringBody_encode x.data
          (',' :: (encodeItemsChars (y :: t2) ++ ']' :: rest))
        have hrec := ih f rest (by simp) (by simp at hlen ⊢; omega)
        simp only [encodeItemsChars, encodeStringChars_eq, List.append_assoc,
          List.cons_append, List.nil_append]
        simp [parseItems, skipWs, isWsChar, hbody, hrec]

theorem encodeItemsChars_head (x : String) (t : List String) :
    ∃ tl, encodeItemsChars (x :: t) = '"' :: tl := by
  cases t <;> simp [encodeItemsChars, encodeStringChars_eq]

theorem encodeItemsChars_length (l : List String) :
    l.length ≤ (encodeItemsChars l).length := by
  induction l with
  | nil => simp [encodeItemsChars]
  | cons x t ih =>
    cases t with
    | nil => simp [encodeItemsChars, encodeStringChars]
    | cons y t2 =>
      simp only [encodeItemsChars, List.length_append, List.length_cons] at ih ⊢
      simp [encodeStringChars]
      omega

theorem jsonParse_stringifyArr (l : List String) :
    jsonParse (jsonStringifyArr l) = some (JsonVal.arr l) := by
  cases l with
  | nil => decide
  | cons x t =>
    obtain ⟨tl, htl⟩ := encodeItemsChars_head x t
    have hdata : (jsonStringifyArr (x :: t)).data
        = '[' :: (encodeItemsChars (x :: t) ++ [']']) := rfl
    have hb := encodeItemsChars_length (x :: t)
    rw [htl] at hb
    simp only [List.length_cons] at hb
    have hitems2 : parseItems (tl.length + 1 + 1 + 1 + 1) ('"' :: (tl ++ [']']))
        = some (x :: t, []) := by
      have h0 := parseItems_encode (x :: t) (tl.length + 1 + 1 + 1 + 1) []
        (by simp) (by simp only [List.length_cons]; omega)
      rw [htl] at h0
      simpa using h0
    simp only [jsonParse, hdata, htl]
    simp [skipWs, isWsChar, hitems2]

/-! ## Behavior of the deduplication pass -/

theorem dedupById_sublist {α : Type} (f : α → String) :
    ∀ (l : List α) (seen : List String), (dedupById f seen l).Sublist l := by
  intro l
  induction l with
  | nil => intro seen; simp [dedupById]
  | cons x rest ih =>
    intro seen
    by_cases h : f x ∈ seen
    · simp only [dedupById, if_pos h]
      exact (ih seen).cons x
    · simp only [dedupById, if_neg h]
      exact (ih (f x :: seen)).cons₂ x

theorem dedupById_mem_not_seen {α : Type} (f : α → String) :
    ∀ (l : List α) (seen : List String) (a : α), a ∈ dedupById f seen l → f a ∉ seen := by
  intro l
  induction l with
  | nil => intro seen a ha; simp [dedupById] at ha
  | cons x rest ih =>
    intro seen a ha
    by_cases h : f x ∈ seen
    · simp only [dedupById, if_pos h] at ha
      exact ih seen a ha
    · simp only [dedupById, if_neg h, List.mem_cons] at ha
      rcases ha with rfl | ha
      · exact h
      · intro hseen
        exact ih (f x :: seen) a ha (List.mem_cons_of_mem _ hseen)

theorem dedupById_filter_seen {α : Type} (f : α → String) (l : List α) (seen : List String)
    (i : String) (hi : i ∈ seen) :
    (dedupById f seen l).filter (fun a => f a == i) = [] := by
  rw [List.filter_eq_nil_iff]
  intro a ha
  have := dedupById_mem_not_seen f l seen a ha
  simp only [beq_iff_eq]
  intro hcontra
  exact this (hcontra ▸ hi)

theorem dedupById_filter_len {α : Type} (f : α → String) :
    ∀ (l : List α) (seen : List String) (i : String), i ∉ seen → i ∈ l.map f →
      ((dedupById f seen l).filter (fun a => f a == i)).length = 1 := by
  intro l
  induction l with
  | nil => intro seen i _ hmem; simp at hmem
  | cons x rest ih =>
    intro seen i hns hmem
    by_cases h : f x ∈ seen
    · have hxi : ¬ f x = i := fun hc => hns (hc ▸ h)
      simp only [dedupById, if_pos h]
      refine ih seen i hns ?_
      simp only [List.map_cons, List.mem_cons] at hmem
      rcases hmem with hmem | hmem
      · exact absurd hmem.symm hxi
      · exact hmem
    · simp only [dedupById, if_neg h]
      by_cases hxi : f x = i
      · rw [List.filter_cons_of_pos (by simp [hxi])]
        simp only [List.length_cons]
        rw [dedupById_filter_seen f rest (f x :: seen) i (by simp [hxi])]
        simp
      · rw [List.filter_cons_of_neg (by simp [hxi])]
        refine ih (f x :: seen) i ?_ ?_
        · simp only [List.mem_cons, not_or]
          exact ⟨fun hc => hxi hc.symm, hns⟩
        · simp only [List.map_cons, List.mem_cons] at hmem
          rcases hmem with hmem | hmem
          · exact absurd hmem.symm hxi
          · exact hmem

theorem dedupById_find {α : Type} (f : α → String) :
    ∀ (l : List α) (seen : List String) (i : String), i ∉ seen →
      (dedupById f seen l).find? (fun a => f a == i) = l.find? (fun a => f a == i) := by
  intro l
  induction l with
  | nil => intro seen i _; simp [dedupById]
  | cons x rest ih =>
    intro seen i hns
    by_cases h : f x ∈ seen
    · have hxi : ¬ f x = i := fun hc => hns (hc ▸ h)
      simp only [dedupById, if_pos h]
      rw [List.find?_cons_of_neg _ (by simp [hxi])]
      exact ih seen i hns
    · simp only [dedupById, if_neg h]
      by_cases hxi : f x = i
      · rw [List.find?_cons_of_pos _ (by simp [hxi]), List.find?_cons_of_pos _ (by simp [hxi])]
      · rw [List.find?_cons_of_neg _ (by simp [hxi]), List.find?_cons_of_neg _ (by simp [hxi])]
        refine ih (f x :: seen) i ?_
        simp only [List.mem_cons, not_or]
        exact ⟨fun hc => hxi hc.symm, hns⟩

/-! ## Behavior of the api-service normalization -/

theorem jsonStringifyArr_ne_empty (l : List String) : ¬ jsonStringifyArr l = "" := by
  intro h
  have := congrArg String.data h
  simp [jsonStringifyArr] at this

theorem normalizeField_arr (xs : List String) :
    normalizeField (FieldVal.arr xs) = Except.ok (FieldVal.arr xs) := rfl

theorem normalizeField_encoded (l : List String) :
    normalizeField (FieldVal.str (jsonStringifyArr l)) = Except.ok (FieldVal.arr l) := by
  simp only [normalizeField]
  rw [if_neg (jsonStringifyArr_ne_empty l), jsonParse_stringifyArr]
  rfl

theorem normalizeField_bad (s : String) (hs : ¬ s = "") (hp : jsonParse s = none) :
    normalizeField (FieldVal.str s) = Except.error "SyntaxError: Unexpected token in JSON" := by
  simp only [normalizeField]
  rw [if_neg hs, hp]

/-! ## Claim theorems -/

/-- C1, counterexample.  The claim says the normalizer never raises and turns a
bare non-JSON string into a single-element sequence.  On the code, a
recommendations field holding the bare paragraph leads assessSymptoms to throw
the JSON.parse failure, and no sequence is produced. -/
theorem C1_counterexample :
    (mkResponse (FieldVal.str "Rest and drink plenty of fluids")).recommendations
        = FieldVal.str "Rest and drink plenty of fluids" ∧
    assessSymptoms (mkResponse (FieldVal.str "Rest and drink plenty of fluids"))
        = Except.error "SyntaxError: Unexpected token in JSON" := by
  exact ⟨rfl, rfl⟩

/-- C1, amended.  The api-service normalization passes native sequences
through unchanged and parses JSON-encoded strings into sequences, but a
nonempty string that is not JSON makes the call throw instead of becoming a
single-element sequence. -/
theorem C1_amended (xs : List String) (s : String) (r : SymptomAssessmentResponse)
    (hs : ¬ s = "") (hp : jsonParse s = none) :
    normalizeField (FieldVal.arr xs) = Except.ok (FieldVal.arr xs) ∧
    normalizeField (FieldVal.str (jsonStringifyArr xs)) = Except.ok (FieldVal.arr xs) ∧
    normalizeField (FieldVal.str s) = Except.error "SyntaxError: Unexpected token in JSON" ∧
    (r.recommendations = FieldVal.str s →
      assessSymptoms r = Except.error "SyntaxError: Unexpected token in JSON") := by
  refine ⟨normalizeField_arr xs, normalizeField_encoded xs, normalizeField_bad s hs hp, ?_⟩
  intro hrec
  unfold assessSymptoms
  rw [hrec, normalizeField_bad s hs hp]

/-- C1, witness for the amended statement at a concrete bare paragraph. -/
theorem C1_amended_witness :
    (¬ "Rest and drink plenty of fluids" = "") ∧
    (normalizeField (FieldVal.arr ["a"]) = Except.ok (FieldVal.arr ["a"]) ∧
      normalizeField (FieldVal.str (jsonStringifyArr ["a"])) = Except.ok (FieldVal.arr ["a"]) ∧
      normalizeField (FieldVal.str "Rest and drink plenty of fluids")
        = Except.error "SyntaxError: Unexpected token in JSON" ∧
      ((mkResponse (FieldVal.str "Rest and drink plenty of fluids")).recommendations
          = FieldVal.str "Rest and drink plenty of fluids" →
        assessSymptoms (mkResponse (FieldVal.str "Rest and drink plenty of fluids"))
          = Except.error "SyntaxError: Unexpected token in JSON")) :=
  ⟨by decide,
    C1_amended ["a"] "Rest and drink plenty of fluids"
      (mkResponse (FieldVal.str "Rest and drink plenty of fluids"))
      (by decide) (by decide)⟩

/-- C8.  Feeding the api-service normalizer a list of texts as a JSON-encoded
string and feeding it the same list as a native sequence yield identical
output sequences, for every list of texts. -/
theorem C8_encoding_insensitive (l : List String) :
    normalizeField (FieldVal.str (jsonStringifyArr l)) = Except.ok (FieldVal.arr l) ∧
    normalizeField (FieldVal.arr l) = Except.ok (FieldVal.arr l) :=
  ⟨normalizeField_encoded l, normalizeField_arr l⟩

/-- C10, counterexample.  The claim says every string-typed field that is not
valid JSON makes assessSymptoms throw.  The empty string is not valid JSON,
yet the JavaScript truthiness guard skips it and the response is returned
unchanged. -/
theorem C10_counterexample :
    jsonParse "" = none ∧
    assessSymptoms (mkResponse (FieldVal.str ""))
      = Except.ok (mkResponse (FieldVal.str "")) := by
  exact ⟨rfl, rfl⟩

/-- C10, amended.  For every response in which one of the three fields is a
nonempty string that is not valid JSON, assessSymptoms throws and the response
is never returned; the empty string is exempt because the truthiness guard
skips it. -/
theorem C10_amended (r : SymptomAssessmentResponse) (s : String)
    (hs : ¬ s = "") (hp : jsonParse s = none)
    (hf : r.recommendations = FieldVal.str s ∨ r.dos = FieldVal.str s
      ∨ r.donts = FieldVal.str s) :
    ∀ r2, ¬ assessSymptoms r = Except.ok r2 := by
  intro r2 hok
  have hbad := normalizeField_bad s hs hp
  unfold assessSymptoms at hok
  rcases hf with hf | hf | hf
  · rw [hf, hbad] at hok
    exact Except.noConfusion hok
  · rw [hf, hbad] at hok
    cases hrec : normalizeField r.recommendations with
    | error e => rw [hrec] at hok; exact Except.noConfusion hok
    | ok rec2 => rw [hrec] at hok; exact Except.noConfusion hok
  · rw [hf, hbad] at hok
    cases hrec : normalizeField r.recommendations with
    | error e => rw [hrec] at hok; exact Except.noConfusion hok
    | ok rec2 =>
      rw [hrec] at hok
      cases hdos : normalizeField r.dos with
      | error e => rw [hdos] at hok; exact Except.noConfusion hok
      | ok dos2 => rw [hdos] at hok; exact Except.noConfusion hok

/-- C10, witness for the amended statement: the bare paragraph in the dos
field makes the call throw. -/
theorem C10_amended_witness :
    ¬ assessSymptoms (mkResponse (FieldVal.str "Rest and drink plenty of fluids"))
        = Except.ok (mkResponse (FieldVal.arr ["Rest and drink plenty of fluids"])) :=
  C10_amended (mkResponse (FieldVal.str "Rest and drink plenty of fluids"))
    "Rest and drink plenty of fluids" (by decide) (by decide) (Or.inl rfl)
    (mkResponse (FieldVal.arr ["Rest and drink plenty of fluids"]))

/-- C9, counterexample.  The claim says the presentation-layer client returns
the three fields exactly as received, with no shape conversion.  On the code,
a recommendations field received as the JSON-encoded string of a one-element
array is returned as a native array, a different value. -/
theorem C9_counterexample :
    assessSymptoms (mkResponse (FieldVal.str "[\"Rest\"]"))
      = Except.ok (mkResponse (FieldVal.arr ["Rest"])) ∧
    ¬ (mkResponse (FieldVal.arr ["Rest"])).recommendations
        = (mkResponse (FieldVal.str "[\"Rest\"]")).recommendations := by
  exact ⟨rfl, by decide⟩

/-- C9, amended.  Normalization is not confined to the orchestrator: the
api-service client itself parses a string-typed recommendations field with
JSON.parse and returns a reshaped response. -/
theorem C9_amended (r : SymptomAssessmentResponse) (s : String) (l : List String)
    (hrec : r.recommendations = FieldVal.str s)
    (hs : ¬ s = "") (hp : jsonParse s = some (JsonVal.arr l))
    (hdos : normalizeField r.dos = Except.ok r.dos)
    (hdonts : normalizeField r.donts = Except.ok r.donts) :
    assessSymptoms r = Except.ok { r with recommendations := FieldVal.arr l } ∧
    ¬ FieldVal.arr l = FieldVal.str s := by
  constructor
  · unfold assessSymptoms
    rw [hrec]
    have : normalizeField (FieldVal.str s) = Except.ok (FieldVal.arr l) := by
      simp only [normalizeField]
      rw [if_neg hs, hp]
      rfl
    rw [this, hdos, hdonts]
  · intro hcontra
    exact FieldVal.noConfusion hcontra

/-- C9, witness for the amended statement at the encoded one-element array. -/
theorem C9_amended_witness :
    assessSymptoms (mkResponse (FieldVal.str "[\"Rest\"]"))
        = Except.ok { mkResponse (FieldVal.str "[\"Rest\"]") with
            recommendations := FieldVal.arr ["Rest"] } ∧
    ¬ FieldVal.arr ["Rest"] = FieldVal.str "[\"Rest\"]" :=
  C9_amended (mkResponse (FieldVal.str "[\"Rest\"]")) "[\"Rest\"]" ["Rest"]
    rfl (by decide) (by decide) rfl rfl

/-- C2, counterexample.  The claim says every unrecognized urgency value maps
to the medium tier.  The dashboard mapping passes an unrecognized value
through verbatim in a default badge, which is none of the three tier badges
and in particular not the medium one. -/
theorem C2_counterexample :
    getUrgencyBadge "Unknown-term" = BadgeKind.plain "Unknown-term" ∧
    ¬ getUrgencyBadge "Unknown-term" = BadgeKind.urgent ∧
    ¬ getUrgencyBadge "Unknown-term" = BadgeKind.emergency ∧
    ¬ getUrgencyBadge "Unknown-term" = BadgeKind.standard := by
  exact ⟨by decide, by decide, by decide, by decide⟩

/-- C2, amended.  The in-repository urgency mapping sends high and emergency
to the high-tier badge, medium to the medium-tier badge and low to the
low-tier badge, case-insensitively, and renders every unrecognized value
verbatim in a default badge, with no coercion to medium and no degradation
flag. -/
theorem C2_amended (s : String)
    (hu : ¬ (strToLower s = "high" ∨ strToLower s = "emergency"
      ∨ strToLower s = "medium" ∨ strToLower s = "low")) :
    getUrgencyBadge "EMERGENCY" = BadgeKind.emergency ∧
    getUrgencyBadge "high" = BadgeKind.emergency ∧
    getUrgencyBadge "medium" = BadgeKind.urgent ∧
    getUrgencyBadge "low" = BadgeKind.standard ∧
    getUrgencyBadge s = BadgeKind.plain s := by
  refine ⟨by decide, by decide, by decide, by decide, ?_⟩
  push_neg at hu
  unfold getUrgencyBadge
  rw [if_neg (by simp [hu.1, hu.2.1]), if_neg (by simp [hu.2.2.1]),
    if_neg (by simp [hu.2.2.2])]

/-- C2, witness for the amended statement at a concrete unrecognized value. -/
theorem C2_amended_witness :
    getUrgencyBadge "EMERGENCY" = BadgeKind.emergency ∧
    getUrgencyBadge "high" = BadgeKind.emergency ∧
    getUrgencyBadge "medium" = BadgeKind.urgent ∧
    getUrgencyBadge "low" = BadgeKind.standard ∧
    getUrgencyBadge "Unknown-term" = BadgeKind.plain "Unknown-term" :=
  C2_amended "Unknown-term" (by decide)

/-- C3.  For every environment and every request whose symptoms text is empty,
assess fails with the invalid-request kind and its event trace is empty: no
model, reference, trial, persistence or appointment interaction happens. -/
theorem C3_invalid_request (env : OrchestratorEnv) (req : AssessmentRequest)
    (h : req.symptoms = "") :
    (∃ e, (assess env req).1 = Except.error e ∧ e.kind = ErrorKind.invalidRequest) ∧
    (assess env req).2 = [] := by
  unfold assess
  rw [if_pos (Or.inl h)]
  exact ⟨⟨_, rfl, rfl⟩, rfl⟩

/-- C3, witness at the empty request. -/
theorem C3_invalid_request_witness :
    (∃ e, (assess demoEnv emptyReq).1 = Except.error e ∧ e.kind = ErrorKind.invalidRequest) ∧
    (assess demoEnv emptyReq).2 = [] :=
  C3_invalid_request demoEnv emptyReq rfl

/-- C7.  Within one assessment, references and trials are deduplicated by id:
the output is a sublist of the input (first-seen order preserved), contains
exactly one entry for every id present in the input, and keeps for each id the
first item that carried it. -/
theorem C7_dedup (rs : List ReferenceItem) (ts : List TrialItem) (i j : String)
    (hi : i ∈ rs.map (fun r => r.id)) (hj : j ∈ ts.map (fun t => t.id)) :
    (dedupRefs rs).Sublist rs ∧
    ((dedupRefs rs).filter (fun r => r.id == i)).length = 1 ∧
    (dedupRefs rs).find? (fun r => r.id == i) = rs.find? (fun r => r.id == i) ∧
    (dedupTrials ts).Sublist ts ∧
    ((dedupTrials ts).filter (fun t => t.id == j)).length = 1 ∧
    (dedupTrials ts).find? (fun t => t.id == j) = ts.find? (fun t => t.id == j) :=
  ⟨dedupById_sublist _ rs [],
    dedupById_filter_len _ rs [] i (by simp) hi,
    dedupById_find _ rs [] i (by simp),
    dedupById_sublist _ ts [],
    dedupById_filter_len _ ts [] j (by simp) hj,
    dedupById_find _ ts [] j (by simp)⟩

/-- C7, witness on concrete duplicate-bearing lists. -/
theorem C7_dedup_witness :
    (dedupRefs demoRefs).Sublist demoRefs ∧
    ((dedupRefs demoRefs).filter (fun r => r.id == "pmid1")).length = 1 ∧
    (dedupRefs demoRefs).find? (fun r => r.id == "pmid1")
      = demoRefs.find? (fun r => r.id == "pmid1") ∧
    (dedupTrials demoTrials).Sublist demoTrials ∧
    ((dedupTrials demoTrials).filter (fun t => t.id == "NCT1")).length = 1 ∧
    (dedupTrials demoTrials).find? (fun t => t.id == "NCT1")
      = demoTrials.find? (fun t => t.id == "NCT1") :=
  C7_dedup demoRefs demoTrials "pmid1" "NCT1" (by decide) (by decide)

/-- C4.  For a valid request whose mandatory model call succeeds at the first
attempt and whose persistence succeeds, assess returns a complete aggregate:
an enrichment failure only empties that source while every model-derived
field is intact. -/
theorem C4_degradation_isolation (env : OrchestratorEnv) (req : AssessmentRequest)
    (raw : RawModelOutput) (aid : Nat)
    (hs : ¬ req.symptoms = "") (ha : plausibleAge req.age = true)
    (hm : env.modelCall 0 = ModelCallResult.ok raw) (hp : env.persistId = some aid) :
    ∃ a, (assess env req).1 = Except.ok a ∧
      (env.trialCall = EnrichResult.failed → a.trials = []) ∧
      (env.refCall = EnrichResult.failed → a.references = []) ∧
      a.id = aid ∧
      a.recommendations = specNormalize raw.recommendations ∧
      a.dos = specNormalize raw.dos ∧
      a.donts = specNormalize raw.donts ∧
      a.reasoning = raw.reasoning ∧
      a.urgency_description = raw.urgency_description ∧
      a.disclaimer = raw.disclaimer ∧
      a.urgency_level = (coerceUrgency raw.urgency_level).1 := by
  have hrm : runModelWithRetry env = ([OrchEvent.modelCalled 0], Except.ok raw) := by
    unfold runModelWithRetry
    rw [hm]
  unfold assess
  rw [if_neg (by simp [hs, ha])]
  simp only [hrm, hp]
  refine ⟨_, rfl, ?_, ?_, rfl, rfl, rfl, rfl, rfl, rfl, rfl, rfl⟩
  · intro ht
    simp only [ht]
    rfl
  · intro hr
    simp only [hr]
    rfl

/-- C4, witness: the trial lookup fails in demoEnv, and assess still returns
the full model-derived aggregate with empty trials. -/
theorem C4_degradation_isolation_witness :
    ∃ a, (assess demoEnv demoReq).1 = Except.ok a ∧
      (demoEnv.trialCall = EnrichResult.failed → a.trials = []) ∧
      (demoEnv.refCall = EnrichResult.failed → a.references = []) ∧
      a.id = 1 ∧
      a.recommendations = specNormalize demoRawHigh.recommendations ∧
      a.dos = specNormalize demoRawHigh.dos ∧
      a.donts = specNormalize demoRawHigh.donts ∧
      a.reasoning = demoRawHigh.reasoning ∧
      a.urgency_description = demoRawHigh.urgency_description ∧
      a.disclaimer = demoRawHigh.disclaimer ∧
      a.urgency_level = (coerceUrgency demoRawHigh.urgency_level).1 :=
  C4_degradation_isolation demoEnv demoReq demoRawHigh 1
    (by decide) (by decide) rfl rfl

/-- C5.  For a valid persisted assessment, when the coerced urgency is high
the appointment trigger appears exactly once in the trace, carrying the
persisted assessment id, and the aggregate still reaches the caller whatever
the trigger outcome; when the coerced urgency is not high the trigger never
appears. -/
theorem C5_appointment_trigger (env : OrchestratorEnv) (req : AssessmentRequest)
    (raw : RawModelOutput) (aid : Nat)
    (hs : ¬ req.symptoms = "") (ha : plausibleAge req.age = true)
    (hm : env.modelCall 0 = ModelCallResult.ok raw) (hp : env.persistId = some aid) :
    ((coerceUrgency raw.urgency_level).1 = Urgency.high →
      (assess env req).2.filter isApptEvent = [OrchEvent.apptCalled aid Urgency.high] ∧
      ∃ a, (assess env req).1 = Except.ok a ∧ a.id = aid ∧ a.urgency_level = Urgency.high) ∧
    (¬ (coerceUrgency raw.urgency_level).1 = Urgency.high →
      (assess env req).2.filter isApptEvent = []) := by
  have hrm : runModelWithRetry env = ([OrchEvent.modelCalled 0], Except.ok raw) := by
    unfold runModelWithRetry
    rw [hm]
  unfold assess
  rw [if_neg (by simp [hs, ha])]
  simp only [hrm, hp]
  constructor
  · intro hhigh
    refine ⟨?_, _, rfl, rfl, hhigh⟩
    cases hrc : env.refCall <;> cases htc : env.trialCall <;>
      cases hap : env.apptResult <;>
      cases hflag : (coerceUrgency raw.urgency_level).2 <;>
      simp [hhigh, isApptEvent, List.filter_append]
  · intro hn
    cases hrc : env.refCall <;> cases htc : env.trialCall <;>
      cases hap : env.apptResult <;>
      cases hflag : (coerceUrgency raw.urgency_level).2 <;>
      simp [hn, isApptEvent, List.filter_append]

/-- C6.  For a valid request whose model call is retryably unavailable and
whose retry is unavailable again, assess fails with the upstream-unavailable
kind after exactly the two model attempts, with no persistence interaction;
and in every run whatsoever each enrichment call happens at most once, so
enrichment is never retried. -/
theorem C6_retry_policy (env : OrchestratorEnv) (req : AssessmentRequest) (b : Bool)
    (hs : ¬ req.symptoms = "") (ha : plausibleAge req.age = true)
    (h0 : env.modelCall 0 = ModelCallResult.unavailable true)
    (h1 : env.modelCall 1 = ModelCallResult.unavailable b) :
    (∃ e, (assess env req).1 = Except.error e ∧ e.kind = ErrorKind.upstreamUnavailable) ∧
    (assess env req).2.filter isModelEvent
      = [OrchEvent.modelCalled 0, OrchEvent.modelCalled 1] ∧
    (assess env req).2.countP isPersistEvent = 0 ∧
    (∀ (env2 : OrchestratorEnv) (req2 : AssessmentRequest),
      (assess env2 req2).2.countP isRefEvent ≤ 1 ∧
      (assess env2 req2).2.countP isTrialEvent ≤ 1) := by
  have hrm : runModelWithRetry env
      = ([OrchEvent.modelCalled 0, OrchEvent.modelCalled 1],
          Except.error ErrorKind.upstreamUnavailable) := by
    simp [runModelWithRetry, h0, h1]
  refine ⟨?_, ?_, ?_, ?_⟩
  · unfold assess
    rw [if_neg (by simp [hs, ha])]
    simp only [hrm]
    exact ⟨_, rfl, rfl⟩
  · unfold assess
    rw [if_neg (by simp [hs, ha])]
    simp only [hrm]
    cases hrc : env.refCall <;> cases htc : env.trialCall <;>
      simp [isModelEvent, List.filter_append]
  · unfold assess
    rw [if_neg (by simp [hs, ha])]
    simp only [hrm]
    cases hrc : env.refCall <;> cases htc : env.trialCall <;>
      simp [isPersistEvent, List.countP_append, List.countP_cons]
  · intro env2 req2
    by_cases hv : req2.symptoms = "" ∨ ¬ plausibleAge req2.age
    · have hz : assess env2 req2
          = (Except.error { kind := ErrorKind.invalidRequest, message := "invalid request" },
              []) := by
        unfold assess
        rw [if_pos hv]
      simp [hz]
    · have hm01 : (runModelWithRetry env2).1 = [OrchEvent.modelCalled 0] ∨
          (runModelWithRetry env2).1
            = [OrchEvent.modelCalled 0, OrchEvent.modelCalled 1] := by
        unfold runModelWithRetry
        cases hc0 : env2.modelCall 0 with
        | ok raw => exact Or.inl rfl
        | malformed => exact Or.inl rfl
        | unavailable r =>
          cases r with
          | false => exact Or.inl rfl
          | true => cases hc1 : env2.modelCall 1 <;> exact Or.inr rfl
      unfold assess
      rw [if_neg hv]
      cases hres : (runModelWithRetry env2).2 with
      | error k =>
        rcases hm01 with hm1 | hm1 <;>
          cases hrc : env2.refCall <;> cases htc : env2.trialCall <;>
          simp [hres, hm1, isRefEvent, isTrialEvent, List.countP_append, List.countP_cons]
      | ok raw =>
        cases hpi : env2.persistId with
        | none =>
          rcases hm01 with hm1 | hm1 <;>
            cases hrc : env2.refCall <;> cases htc : env2.trialCall <;>
            cases hflag : (coerceUrgency raw.urgency_level).2 <;>
            simp [hres, hpi, hm1, hflag, isRefEvent, isTrialEvent, List.countP_append,
              List.countP_cons]
        | some aid =>
          by_cases hhigh : (coerceUrgency raw.urgency_level).1 = Urgency.high <;>
            rcases hm01 with hm1 | hm1 <;>
            cases hrc : env2.refCall <;> cases htc : env2.trialCall <;>
            cases hflag : (coerceUrgency raw.urgency_level).2 <;>
            cases hap : env2.apptResult <;>
            simp [hres, hpi, hm1, hhigh, hflag, hap, isRefEvent, isTrialEvent,
              List.countP_append, List.countP_cons]

/-- C5, witness: the end-to-end high-urgency scenario triggers the
appointment call exactly once with the persisted id 1. -/
theorem C5_appointment_trigger_witness :
    (assess demoEnv demoReq).2.filter isApptEvent = [OrchEvent.apptCalled 1 Urgency.high] ∧
    ∃ a, (assess demoEnv demoReq).1 = Except.ok a ∧ a.id = 1 ∧
      a.urgency_level = Urgency.high :=
  (C5_appointment_trigger demoEnv demoReq demoRawHigh 1
    (by decide) (by decide) rfl rfl).1 (by decide)

/-- C6, witness: with every model attempt retryably unavailable, the demo run
fails as upstream-unavailable after exactly two attempts and never persists. -/
theorem C6_retry_policy_witness :
    (∃ e, (assess downEnv demoReq).1 = Except.error e ∧
      e.kind = ErrorKind.upstreamUnavailable) ∧
    (assess downEnv demoReq).2.filter isModelEvent
      = [OrchEvent.modelCalled 0, OrchEvent.modelCalled 1] ∧
    (assess downEnv demoReq).2.countP isPersistEvent = 0 ∧
    (∀ (env2 : OrchestratorEnv) (req2 : AssessmentRequest),
      (assess env2 req2).2.countP isRefEvent ≤ 1 ∧
      (assess env2 req2).2.countP isTrialEvent ≤ 1) :=
  C6_retry_policy downEnv demoReq true (by decide) (by decide) rfl rfl
